import Mathlib

/-!
Verification of the ownership-scoped data-access layer of the lifting-diary
application (`src/data/workouts.ts`, `src/data/sets.ts`, `src/data/exercises.ts`).

The relational store is modelled as explicit lists of rows; each data-access
function becomes a pure Lean function over a `DB` value, with mutations
returning the drizzle `returning()` result together with the successor state.
Timestamps are milliseconds since the epoch (`Nat`); user identifiers are
opaque strings; SQL `NULL` from aggregates is `Option`.
-/

namespace LiftingDiary

/-- Row of the `workouts` table: id, owning userId (opaque string from the
identity provider), name, startedAt, createdAt, updatedAt. -/
structure Workout where
  id : Nat
  userId : String
  name : String
  startedAt : Nat
  createdAt : Nat
  updatedAt : Nat
  deriving DecidableEq

/-- Row of the `exercises` catalog table (shared, not user-scoped). -/
structure Exercise where
  id : Nat
  name : String
  deriving DecidableEq

/-- Row of the `workout_exercises` join table, carrying the display `order`
assigned as max existing + 1 with baseline -1 (so the first row gets 0). -/
structure WorkoutExercise where
  id : Nat
  workoutId : Nat
  exerciseId : Nat
  order : Int
  createdAt : Nat
  deriving DecidableEq

/-- Row of the `sets` table: one reps/weight entry under a workout exercise,
carrying a per-parent sequence number `setNumber`. -/
structure SetRow where
  id : Nat
  workoutExerciseId : Nat
  setNumber : Nat
  reps : Nat
  weight : String
  createdAt : Nat
  deriving DecidableEq

/-- The relational store: the four tables of the schema. -/
structure DB where
  workouts : List Workout
  exercises : List Exercise
  workoutExercises : List WorkoutExercise
  sets : List SetRow
  deriving DecidableEq

/-- Nested-loop inner join, modelling drizzle's `innerJoin`: every pair
`(x, y)` with `on x y` true, in row order. -/
def innerJoin {α β : Type} (xs : List α) (ys : List β) (cond : α → β → Bool) :
    List (α × β) :=
  match xs with
  | [] => []
  | x :: rest =>
    (ys.filter (cond x)).map (fun y => (x, y)) ++ innerJoin rest ys cond

/-- `ORDER BY sets.setNumber` comparison. -/
def leSetNumber (a b : SetRow) : Prop := a.setNumber ≤ b.setNumber

instance : DecidableRel leSetNumber := fun a b => Nat.decLe a.setNumber b.setNumber

instance : IsTotal SetRow leSetNumber := ⟨fun a b => Nat.le_total a.setNumber b.setNumber⟩

instance : IsTrans SetRow leSetNumber := ⟨fun _ _ _ => Nat.le_trans⟩

/-- `ORDER BY workouts.startedAt` comparison. -/
def leStartedAt (a b : Workout) : Prop := a.startedAt ≤ b.startedAt

instance : DecidableRel leStartedAt := fun a b => Nat.decLe a.startedAt b.startedAt

instance : IsTotal Workout leStartedAt := ⟨fun a b => Nat.le_total a.startedAt b.startedAt⟩

instance : IsTrans Workout leStartedAt := ⟨fun _ _ _ => Nat.le_trans⟩

/-- `ORDER BY workout_exercises.order` comparison on joined
(workout exercise, catalog exercise) rows. -/
def leOrderPair (p q : WorkoutExercise × Exercise) : Prop := p.1.order ≤ q.1.order

instance : DecidableRel leOrderPair := fun p q => Int.decLe p.1.order q.1.order

instance : IsTotal (WorkoutExercise × Exercise) leOrderPair :=
  ⟨fun p q => Int.le_total p.1.order q.1.order⟩

instance : IsTrans (WorkoutExercise × Exercise) leOrderPair :=
  ⟨fun _ _ _ => Int.le_trans⟩

/-- The ownership-verification query shared by `updateSet` and `deleteSet`
(`sets.ts`): join sets → workout_exercises → workouts and keep rows with the
given set id whose workout belongs to `userId`. -/
def verifySetOwnership (db : DB) (setId : Nat) (userId : String) :
    List ((SetRow × WorkoutExercise) × Workout) :=
  (innerJoin (innerJoin db.sets db.workoutExercises
        (fun s we => s.workoutExerciseId == we.id))
      db.workouts (fun p w => p.2.workoutId == w.id)).filter
    (fun q => q.1.1.id == setId && q.2.userId == userId)

/-- The ownership-verification query of `createSet` and
`removeExerciseFromWorkout`: join workout_exercises → workouts and keep rows
with the given workout-exercise id whose workout belongs to `userId`. -/
def verifyWorkoutExerciseOwnership (db : DB) (workoutExerciseId : Nat)
    (userId : String) : List (WorkoutExercise × Workout) :=
  (innerJoin db.workoutExercises db.workouts
      (fun we w => we.workoutId == w.id)).filter
    (fun p => p.1.id == workoutExerciseId && p.2.userId == userId)

/-- The ownership-verification query of `addExerciseToWorkout` and
`getWorkoutExercisesWithSets`: workouts with the given id owned by `userId`. -/
def verifyWorkoutOwnership (db : DB) (workoutId : Nat) (userId : String) :
    List Workout :=
  db.workouts.filter (fun w => w.id == workoutId && w.userId == userId)

/-- `getSetsByWorkoutExercise` (`sets.ts`): all sets of a workout exercise
ordered by setNumber.  Note the source takes no caller identifier. -/
def getSetsByWorkoutExercise (db : DB) (workoutExerciseId : Nat) : List SetRow :=
  List.insertionSort leSetNumber
    (db.sets.filter (fun s => s.workoutExerciseId == workoutExerciseId))

/-- `createSet` (`sets.ts`): verify the workout exercise belongs to a workout
owned by the user; on failure return null; otherwise insert a set whose
setNumber is the max existing setNumber in the parent scope (SQL `max`, null
when no rows, defaulted by `?? 0`) plus one.  `newId` models the
store-assigned serial id and `now` the server clock (`new Date()`). -/
def createSet (db : DB) (workoutExerciseId : Nat) (reps : Nat) (weight : String)
    (userId : String) (newId : Nat) (now : Nat) : Option SetRow × DB :=
  if (verifyWorkoutExerciseOwnership db workoutExerciseId userId).isEmpty then
    (none, db)
  else
    let maxSet := ((db.sets.filter
      (fun s => s.workoutExerciseId == workoutExerciseId)).map
        (fun s => s.setNumber)).max?
    let nextSetNumber := maxSet.getD 0 + 1
    let inserted : SetRow :=
      { id := newId, workoutExerciseId := workoutExerciseId,
        setNumber := nextSetNumber, reps := reps, weight := weight,
        createdAt := now }
    (some inserted, { db with sets := db.sets ++ [inserted] })

/-- `updateSet` (`sets.ts`): verify the set belongs to a workout owned by the
user; on failure return null; otherwise update reps and weight of the row
with that set id and return the updated row (`returning()`). -/
def updateSet (db : DB) (setId : Nat) (reps : Nat) (weight : String)
    (userId : String) : Option SetRow × DB :=
  if (verifySetOwnership db setId userId).isEmpty then
    (none, db)
  else
    let newSets := db.sets.map (fun s =>
      if s.id == setId then { s with reps := reps, weight := weight } else s)
    ((newSets.filter (fun s => s.id == setId)).head?, { db with sets := newSets })

/-- `deleteSet` (`sets.ts`): verify the set belongs to a workout owned by the
user; on failure return null; otherwise delete the row and return it. -/
def deleteSet (db : DB) (setId : Nat) (userId : String) : Option SetRow × DB :=
  if (verifySetOwnership db setId userId).isEmpty then
    (none, db)
  else
    ((db.sets.filter (fun s => s.id == setId)).head?,
     { db with sets := db.sets.filter (fun s => !(s.id == setId)) })

/-- `getWorkoutById` (`workouts.ts`): the first workout with the given id
owned by the user (`result[0] ?? null`). -/
def getWorkoutById (db : DB) (workoutId : Nat) (userId : String) : Option Workout :=
  (db.workouts.filter (fun w => w.id == workoutId && w.userId == userId)).head?

/-- Models date-fns `startOfDay` on millisecond timestamps in the server's
reference timezone (taken as UTC): truncate to the enclosing day. -/
def startOfDay (date : Nat) : Nat := date - date % 86400000

/-- Models date-fns `endOfDay`: last millisecond (23:59:59.999) of the day. -/
def endOfDay (date : Nat) : Nat := startOfDay date + 86399999

/-- `getWorkoutsByUserIdAndDate` (`workouts.ts`): the user's workouts whose
startedAt lies in [startOfDay date, endOfDay date], ordered by startedAt. -/
def getWorkoutsByUserIdAndDate (db : DB) (userId : String) (date : Nat) :
    List Workout :=
  let dayStart := startOfDay date
  let dayEnd := endOfDay date
  List.insertionSort leStartedAt (db.workouts.filter (fun w =>
    w.userId == userId && decide (dayStart ≤ w.startedAt)
      && decide (w.startedAt ≤ dayEnd)))

/-- The partial update accepted by `updateWorkout`
(`data: { name?: string; startedAt?: Date }`). -/
structure WorkoutPatch where
  name : Option String
  startedAt : Option Nat
  deriving DecidableEq

/-- Effect of drizzle `.set({ ...data, updatedAt: new Date() })` on one row:
fields absent from the patch are left as stored. -/
def applyWorkoutPatch (w : Workout) (patch : WorkoutPatch) (now : Nat) : Workout :=
  { w with
    name := patch.name.getD w.name,
    startedAt := patch.startedAt.getD w.startedAt,
    updatedAt := now }

/-- `updateWorkout` (`workouts.ts`): update name/startedAt/updatedAt of the
rows matching id and userId, returning the first updated row or null. -/
def updateWorkout (db : DB) (workoutId : Nat) (userId : String)
    (patch : WorkoutPatch) (now : Nat) : Option Workout × DB :=
  let newWorkouts := db.workouts.map (fun w =>
    if w.id == workoutId && w.userId == userId then applyWorkoutPatch w patch now
    else w)
  ((newWorkouts.filter (fun w => w.id == workoutId && w.userId == userId)).head?,
   { db with workouts := newWorkouts })

/-- `addExerciseToWorkout` (`exercises.ts`): verify the workout belongs to the
user; on failure return null; otherwise insert a workout exercise whose order
is the max existing order in the workout (SQL `max`, null when no rows,
defaulted by `?? -1`) plus one. -/
def addExerciseToWorkout (db : DB) (workoutId : Nat) (exerciseId : Nat)
    (userId : String) (newId : Nat) (now : Nat) : Option WorkoutExercise × DB :=
  if (verifyWorkoutOwnership db workoutId userId).isEmpty then
    (none, db)
  else
    let maxOrder := ((db.workoutExercises.filter
      (fun we => we.workoutId == workoutId)).map (fun we => we.order)).max?
    let nextOrder := maxOrder.getD (-1) + 1
    let inserted : WorkoutExercise :=
      { id := newId, workoutId := workoutId, exerciseId := exerciseId,
        order := nextOrder, createdAt := now }
    (some inserted,
     { db with workoutExercises := db.workoutExercises ++ [inserted] })

/-- `removeExerciseFromWorkout` (`exercises.ts`): verify the workout exercise
belongs to a workout owned by the user; on failure return null; otherwise
delete it (the schema-level cascade also deletes its sets) and return it. -/
def removeExerciseFromWorkout (db : DB) (workoutExerciseId : Nat)
    (userId : String) : Option WorkoutExercise × DB :=
  if (verifyWorkoutExerciseOwnership db workoutExerciseId userId).isEmpty then
    (none, db)
  else
    ((db.workoutExercises.filter (fun we => we.id == workoutExerciseId)).head?,
     { db with
        workoutExercises :=
          db.workoutExercises.filter (fun we => !(we.id == workoutExerciseId)),
        sets := db.sets.filter
          (fun s => !(s.workoutExerciseId == workoutExerciseId)) })

/-- Projection of a set row selected by `getWorkoutExercisesWithSets`
(id, setNumber, reps, weight, createdAt). -/
structure SetView where
  id : Nat
  setNumber : Nat
  reps : Nat
  weight : String
  createdAt : Nat
  deriving DecidableEq

/-- One element of the `getWorkoutExercisesWithSets` result: the workout
exercise with its catalog exercise name and its sets. -/
structure WorkoutExerciseDetail where
  id : Nat
  workoutId : Nat
  exerciseId : Nat
  order : Int
  exerciseName : String
  createdAt : Nat
  sets : List SetView
  deriving DecidableEq

/-- The set projection of `getWorkoutExercisesWithSets`. -/
def setViewOf (s : SetRow) : SetView :=
  { id := s.id, setNumber := s.setNumber, reps := s.reps, weight := s.weight,
    createdAt := s.createdAt }

/-- The per-exercise set fetch of `getWorkoutExercisesWithSets`: sets of the
workout exercise ordered by setNumber, projected. -/
def setsForWorkoutExercise (db : DB) (workoutExerciseId : Nat) : List SetView :=
  (List.insertionSort leSetNumber
    (db.sets.filter (fun s => s.workoutExerciseId == workoutExerciseId))).map
      setViewOf

/-- The row constructed for each joined (workout exercise, exercise) pair in
`getWorkoutExercisesWithSets`. -/
def detailRow (db : DB) (we : WorkoutExercise) (e : Exercise) :
    WorkoutExerciseDetail :=
  { id := we.id, workoutId := we.workoutId, exerciseId := we.exerciseId,
    order := we.order, exerciseName := e.name, createdAt := we.createdAt,
    sets := setsForWorkoutExercise db we.id }

/-- `getWorkoutExercisesWithSets` (`exercises.ts`): verify workout ownership
(null on failure); join workout_exercises with the exercise catalog, keep the
workout's rows ordered by `order`, and attach each row's sets ordered by
setNumber. -/
def getWorkoutExercisesWithSets (db : DB) (workoutId : Nat) (userId : String) :
    Option (List WorkoutExerciseDetail) :=
  if (verifyWorkoutOwnership db workoutId userId).isEmpty then
    none
  else
    let joined := (innerJoin db.workoutExercises db.exercises
        (fun we e => we.exerciseId == e.id)).filter
      (fun p => p.1.workoutId == workoutId)
    some ((List.insertionSort leOrderPair joined).map (fun p => detailRow db p.1 p.2))

/-- The ownership chain of a workout: some stored workout has this id and
this owner. -/
def workoutOwnedBy (db : DB) (workoutId : Nat) (userId : String) : Prop :=
  ∃ w ∈ db.workouts, w.id = workoutId ∧ w.userId = userId

/-- The ownership chain of a workout exercise: it resolves through
`workoutId` to a stored workout owned by `userId`. -/
def workoutExerciseOwnedBy (db : DB) (workoutExerciseId : Nat)
    (userId : String) : Prop :=
  ∃ we ∈ db.workoutExercises, ∃ w ∈ db.workouts,
    we.workoutId = w.id ∧ we.id = workoutExerciseId ∧ w.userId = userId

/-- The ownership chain of a set: it resolves through `workoutExerciseId` and
`workoutId` to a stored workout owned by `userId`. -/
def setOwnedBy (db : DB) (setId : Nat) (userId : String) : Prop :=
  ∃ s ∈ db.sets, ∃ we ∈ db.workoutExercises, ∃ w ∈ db.workouts,
    s.workoutExerciseId = we.id ∧ we.workoutId = w.id ∧ s.id = setId ∧
    w.userId = userId

instance (db : DB) (workoutId : Nat) (userId : String) :
    Decidable (workoutOwnedBy db workoutId userId) :=
  decidable_of_iff (∃ w ∈ db.workouts, w.id = workoutId ∧ w.userId = userId)
    Iff.rfl

instance (db : DB) (workoutExerciseId : Nat) (userId : String) :
    Decidable (workoutExerciseOwnedBy db workoutExerciseId userId) :=
  decidable_of_iff
    (∃ we ∈ db.workoutExercises, ∃ w ∈ db.workouts,
      we.workoutId = w.id ∧ we.id = workoutExerciseId ∧ w.userId = userId)
    Iff.rfl

instance (db : DB) (setId : Nat) (userId : String) :
    Decidable (setOwnedBy db setId userId) :=
  decidable_of_iff
    (∃ s ∈ db.sets, ∃ we ∈ db.workoutExercises, ∃ w ∈ db.workouts,
      s.workoutExerciseId = we.id ∧ we.workoutId = w.id ∧ s.id = setId ∧
      w.userId = userId)
    Iff.rfl

/-- Concrete store used by the closed-instance theorems: workout 1 (owned by
`"u1"`) has two workout exercises — exercise 1 with one recorded set, exercise
2 with none — and workout 2 (also `"u1"`) has no exercises. -/
def exDB : DB :=
  { workouts := [{ id := 1, userId := "u1", name := "Leg Day", startedAt := 0,
                   createdAt := 0, updatedAt := 0 },
                 { id := 2, userId := "u1", name := "Push Day", startedAt := 1,
                   createdAt := 1, updatedAt := 1 }],
    exercises := [{ id := 5, name := "Squat" }],
    workoutExercises := [{ id := 1, workoutId := 1, exerciseId := 5,
                           order := 0, createdAt := 0 },
                         { id := 2, workoutId := 1, exerciseId := 5,
                           order := 1, createdAt := 0 }],
    sets := [{ id := 1, workoutExerciseId := 1, setNumber := 1, reps := 8,
               weight := "135", createdAt := 0 }] }

/-- The stored setNumber values in the scope of one workout exercise. -/
def setNumbersFor (db : DB) (workoutExerciseId : Nat) : List Nat :=
  (db.sets.filter (fun s => s.workoutExerciseId == workoutExerciseId)).map
    (fun s => s.setNumber)

/-- One call of `createSet` per element of `params` (reps, weight, new id,
timestamp), serially, against the same workout exercise and caller. -/
def createSetsSeq (db : DB) (workoutExerciseId : Nat) (userId : String) :
    List (Nat × String × Nat × Nat) → DB
  | [] => db
  | p :: ps =>
    createSetsSeq
      (createSet db workoutExerciseId p.1 p.2.1 userId p.2.2.1 p.2.2.2).2
      workoutExerciseId userId ps

/-- Ascending display order on composite-fetch rows. -/
def leOrderDetail (a b : WorkoutExerciseDetail) : Prop := a.order ≤ b.order

/-- Ascending setNumber on projected set rows. -/
def leSetViewNumber (a b : SetView) : Prop := a.setNumber ≤ b.setNumber

/-- The stored display orders in the scope of one workout. -/
def ordersFor (db : DB) (workoutId : Nat) : List Int :=
  (db.workoutExercises.filter (fun we => we.workoutId == workoutId)).map
    (fun we => we.order)

/-- Membership in the nested-loop join. -/
theorem mem_innerJoin {α β : Type} (xs : List α) (ys : List β)
    (cond : α → β → Bool) (p : α × β) :
    p ∈ innerJoin xs ys cond ↔ p.1 ∈ xs ∧ p.2 ∈ ys ∧ cond p.1 p.2 = true := by
  induction xs with
  | nil => simp [innerJoin]
  | cons x rest ih =>
    obtain ⟨a, b⟩ := p
    simp only [innerJoin, List.mem_append, List.mem_map, List.mem_filter,
      List.mem_cons, ih]
    constructor
    · rintro (⟨y, ⟨hy, hcond⟩, heq⟩ | ⟨ha, hb, hc⟩)
      · cases heq
        exact ⟨Or.inl rfl, hy, hcond⟩
      · exact ⟨Or.inr ha, hb, hc⟩
    · rintro ⟨ha | ha, hb, hc⟩
      · subst ha
        exact Or.inl ⟨b, ⟨hb, hc⟩, rfl⟩
      · exact Or.inr ⟨ha, hb, hc⟩

/-- The workout-ownership verification query is empty exactly when no stored
workout has the given id and owner. -/
theorem verifyWorkoutOwnership_isEmpty (db : DB) (workoutId : Nat)
    (userId : String) :
    (verifyWorkoutOwnership db workoutId userId).isEmpty = true ↔
      ¬ workoutOwnedBy db workoutId userId := by
  simp [verifyWorkoutOwnership, workoutOwnedBy, List.isEmpty_iff,
    List.filter_eq_nil_iff]

/-- The workout-exercise verification query is empty exactly when the
workout-exercise ownership chain does not resolve to the caller. -/
theorem verifyWorkoutExerciseOwnership_isEmpty (db : DB)
    (workoutExerciseId : Nat) (userId : String) :
    (verifyWorkoutExerciseOwnership db workoutExerciseId userId).isEmpty = true ↔
      ¬ workoutExerciseOwnedBy db workoutExerciseId userId := by
  simp only [verifyWorkoutExerciseOwnership, workoutExerciseOwnedBy,
    List.isEmpty_iff, List.filter_eq_nil_iff]
  constructor
  · rintro h ⟨we, hwe, w, hw, hchain, hid, huser⟩
    have := h (we, w) ((mem_innerJoin ..).mpr ⟨hwe, hw, by simp [hchain]⟩)
    simp [hid, huser] at this
  · intro h p hp
    rw [mem_innerJoin] at hp
    obtain ⟨h1, h2, h3⟩ := hp
    simp only [beq_iff_eq] at h3
    by_contra hcond
    simp only [Bool.not_eq_false, Bool.and_eq_true, beq_iff_eq] at hcond
    exact h ⟨p.1, h1, p.2, h2, h3, hcond.1, hcond.2⟩

/-- The set verification query is empty exactly when the set ownership chain
does not resolve to the caller. -/
theorem verifySetOwnership_isEmpty (db : DB) (setId : Nat) (userId : String) :
    (verifySetOwnership db setId userId).isEmpty = true ↔
      ¬ setOwnedBy db setId userId := by
  simp only [verifySetOwnership, setOwnedBy, List.isEmpty_iff,
    List.filter_eq_nil_iff]
  constructor
  · rintro h ⟨s, hs, we, hwe, w, hw, hswe, hwew, hid, huser⟩
    have := h ((s, we), w)
      ((mem_innerJoin ..).mpr
        ⟨(mem_innerJoin ..).mpr ⟨hs, hwe, by simp [hswe]⟩, hw, by simp [hwew]⟩)
    simp [hid, huser] at this
  · intro h q hq
    rw [mem_innerJoin] at hq
    obtain ⟨h1, h2, h3⟩ := hq
    rw [mem_innerJoin] at h1
    obtain ⟨h11, h12, h13⟩ := h1
    simp only [beq_iff_eq] at h3 h13
    by_contra hcond
    simp only [Bool.not_eq_false, Bool.and_eq_true, beq_iff_eq] at hcond
    exact h ⟨q.1.1, h11, q.1.2, h12, q.2, h2, h13, h3, hcond.1, hcond.2⟩

/-- `updateSet` fails closed: unresolved ownership chain means null result and
unchanged store. -/
theorem updateSet_not_owned (db : DB) (setId : Nat) (reps : Nat)
    (weight : String) (userId : String) (h : ¬ setOwnedBy db setId userId) :
    updateSet db setId reps weight userId = (none, db) := by
  rw [updateSet, if_pos ((verifySetOwnership_isEmpty ..).mpr h)]

/-- `deleteSet` fails closed. -/
theorem deleteSet_not_owned (db : DB) (setId : Nat) (userId : String)
    (h : ¬ setOwnedBy db setId userId) :
    deleteSet db setId userId = (none, db) := by
  rw [deleteSet, if_pos ((verifySetOwnership_isEmpty ..).mpr h)]

/-- `createSet` fails closed. -/
theorem createSet_not_owned (db : DB) (workoutExerciseId : Nat) (reps : Nat)
    (weight : String) (userId : String) (newId : Nat) (now : Nat)
    (h : ¬ workoutExerciseOwnedBy db workoutExerciseId userId) :
    createSet db workoutExerciseId reps weight userId newId now = (none, db) := by
  rw [createSet, if_pos ((verifyWorkoutExerciseOwnership_isEmpty ..).mpr h)]

/-- `removeExerciseFromWorkout` fails closed. -/
theorem removeExerciseFromWorkout_not_owned (db : DB) (workoutExerciseId : Nat)
    (userId : String)
    (h : ¬ workoutExerciseOwnedBy db workoutExerciseId userId) :
    removeExerciseFromWorkout db workoutExerciseId userId = (none, db) := by
  rw [removeExerciseFromWorkout,
    if_pos ((verifyWorkoutExerciseOwnership_isEmpty ..).mpr h)]

/-- `addExerciseToWorkout` fails closed. -/
theorem addExerciseToWorkout_not_owned (db : DB) (workoutId : Nat)
    (exerciseId : Nat) (userId : String) (newId : Nat) (now : Nat)
    (h : ¬ workoutOwnedBy db workoutId userId) :
    addExerciseToWorkout db workoutId exerciseId userId newId now = (none, db) := by
  rw [addExerciseToWorkout, if_pos ((verifyWorkoutOwnership_isEmpty ..).mpr h)]

/-- `getWorkoutExercisesWithSets` fails closed. -/
theorem getWorkoutExercisesWithSets_not_owned (db : DB) (workoutId : Nat)
    (userId : String) (h : ¬ workoutOwnedBy db workoutId userId) :
    getWorkoutExercisesWithSets db workoutId userId = none := by
  rw [getWorkoutExercisesWithSets, if_pos ((verifyWorkoutOwnership_isEmpty ..).mpr h)]

/-- On a resolved ownership chain, `createSet` inserts exactly one row, with
sequence number max existing + 1 and the server timestamp. -/
theorem createSet_owned (db : DB) (workoutExerciseId : Nat) (reps : Nat)
    (weight : String) (userId : String) (newId : Nat) (now : Nat)
    (h : workoutExerciseOwnedBy db workoutExerciseId userId) :
    createSet db workoutExerciseId reps weight userId newId now =
      (some { id := newId, workoutExerciseId := workoutExerciseId,
              setNumber := (((db.sets.filter
                (fun s => s.workoutExerciseId == workoutExerciseId)).map
                  (fun s => s.setNumber)).max?).getD 0 + 1,
              reps := reps, weight := weight, createdAt := now },
       { db with sets := db.sets ++
          [{ id := newId, workoutExerciseId := workoutExerciseId,
             setNumber := (((db.sets.filter
               (fun s => s.workoutExerciseId == workoutExerciseId)).map
                 (fun s => s.setNumber)).max?).getD 0 + 1,
             reps := reps, weight := weight, createdAt := now }] }) := by
  rw [createSet, if_neg]
  intro hc
  exact (verifyWorkoutExerciseOwnership_isEmpty ..).mp hc h

/-- On a resolved ownership chain, `addExerciseToWorkout` inserts exactly one
row, with order max existing + 1 (baseline -1) and the server timestamp. -/
theorem addExerciseToWorkout_owned (db : DB) (workoutId : Nat)
    (exerciseId : Nat) (userId : String) (newId : Nat) (now : Nat)
    (h : workoutOwnedBy db workoutId userId) :
    addExerciseToWorkout db workoutId exerciseId userId newId now =
      (some { id := newId, workoutId := workoutId, exerciseId := exerciseId,
              order := (((db.workoutExercises.filter
                (fun we => we.workoutId == workoutId)).map
                  (fun we => we.order)).max?).getD (-1) + 1,
              createdAt := now },
       { db with workoutExercises := db.workoutExercises ++
          [{ id := newId, workoutId := workoutId, exerciseId := exerciseId,
             order := (((db.workoutExercises.filter
               (fun we => we.workoutId == workoutId)).map
                 (fun we => we.order)).max?).getD (-1) + 1,
             createdAt := now }] }) := by
  rw [addExerciseToWorkout, if_neg]
  intro hc
  exact (verifyWorkoutOwnership_isEmpty ..).mp hc h

/-- In a list with pairwise-distinct keys, two members with the same key are
equal. -/
theorem eq_of_mem_pairwise_ne {α : Type} {key : α → Nat} {l : List α}
    (huniq : l.Pairwise (fun a b => key a ≠ key b)) {a b : α}
    (ha : a ∈ l) (hb : b ∈ l) (hk : key a = key b) : a = b := by
  induction l with
  | nil => cases ha
  | cons x rest ih =>
    obtain ⟨hx, hrest⟩ := List.pairwise_cons.mp huniq
    rcases List.mem_cons.mp ha with rfl | ha2 <;>
      rcases List.mem_cons.mp hb with rfl | hb2
    · rfl
    · exact absurd hk (hx b hb2)
    · exact absurd hk.symm (hx a ha2)
    · exact ih hrest ha2 hb2

/-- In a store with pairwise-distinct workout ids, the `getWorkoutById`
filter for a stored workout's own id and owner selects exactly that row. -/
theorem filter_workout_self {l : List Workout} (W : Workout) (hmem : W ∈ l)
    (huniq : l.Pairwise (fun a b => a.id ≠ b.id)) :
    l.filter (fun w => w.id == W.id && w.userId == W.userId) = [W] := by
  induction l with
  | nil => cases hmem
  | cons x rest ih =>
    obtain ⟨hx, hrest⟩ := List.pairwise_cons.mp huniq
    rcases List.mem_cons.mp hmem with rfl | hmem2
    · rw [List.filter_cons_of_pos (by simp)]
      have hnil : rest.filter (fun w => w.id == W.id && w.userId == W.userId) = [] := by
        rw [List.filter_eq_nil_iff]
        intro a ha
        simp only [Bool.and_eq_true, beq_iff_eq, not_and]
        intro haid
        exact absurd haid.symm (hx a ha)
      rw [hnil]
    · rw [List.filter_cons_of_neg, ih hmem2 hrest]
      simp only [Bool.and_eq_true, beq_iff_eq, not_and]
      intro hxid
      exact absurd hxid (hx W hmem2)

/-- C1 counterexample: the claim "every function that reads Sets takes the
caller's identifier and applies this check" is false of the code.  In the
store `exDB`, whose only workout is owned by `"u1"`, the data-layer read
`getSetsByWorkoutExercise` takes no caller identifier at all and returns the
set rows for any caller — in particular for caller `"u2"`, who does not own
the workout, the result is not absent. -/
theorem c1_counterexample :
    ¬ (∀ callerId : String,
        getSetsByWorkoutExercise exDB 1 = [] ∨ workoutOwnedBy exDB 1 callerId) := by
  intro h
  rcases h "u2" with h1 | h2
  · exact absurd h1 (by decide)
  · exact absurd h2 (by decide)

/-- C1 (amended): every mutation of a Set or WorkoutExercise (`updateSet`,
`deleteSet`, `createSet`, `removeExerciseFromWorkout`) and the composite read
`getWorkoutExercisesWithSets` resolve the ownership chain
Set → WorkoutExercise → Workout → userId and return an absent result, leaving
the store unchanged, whenever the chain does not resolve to the caller;
however, the plain read `getSetsByWorkoutExercise` takes no caller identifier
and applies no such check. -/
theorem c1_mutations_check_ownership (db : DB) (setId : Nat)
    (workoutExerciseId : Nat) (workoutId : Nat) (reps : Nat) (newId : Nat)
    (now : Nat) (weight : String) (callerId : String)
    (hs : ¬ setOwnedBy db setId callerId)
    (hwe : ¬ workoutExerciseOwnedBy db workoutExerciseId callerId)
    (hw : ¬ workoutOwnedBy db workoutId callerId) :
    updateSet db setId reps weight callerId = (none, db) ∧
    deleteSet db setId callerId = (none, db) ∧
    createSet db workoutExerciseId reps weight callerId newId now = (none, db) ∧
    removeExerciseFromWorkout db workoutExerciseId callerId = (none, db) ∧
    getWorkoutExercisesWithSets db workoutId callerId = none :=
  ⟨updateSet_not_owned db setId reps weight callerId hs,
   deleteSet_not_owned db setId callerId hs,
   createSet_not_owned db workoutExerciseId reps weight callerId newId now hwe,
   removeExerciseFromWorkout_not_owned db workoutExerciseId callerId hwe,
   getWorkoutExercisesWithSets_not_owned db workoutId callerId hw⟩

/-- C1 witness: the amended theorem applied to `exDB` with caller `"u2"`. -/
theorem c1_mutations_check_ownership_witness :
    ¬ setOwnedBy exDB 1 "u2" ∧ ¬ workoutExerciseOwnedBy exDB 1 "u2" ∧
    ¬ workoutOwnedBy exDB 1 "u2" ∧
    (updateSet exDB 1 10 "200" "u2" = (none, exDB) ∧
     deleteSet exDB 1 "u2" = (none, exDB) ∧
     createSet exDB 1 10 "200" "u2" 2 7 = (none, exDB) ∧
     removeExerciseFromWorkout exDB 1 "u2" = (none, exDB) ∧
     getWorkoutExercisesWithSets exDB 1 "u2" = none) :=
  ⟨by decide, by decide, by decide,
   c1_mutations_check_ownership exDB 1 1 1 10 2 7 "200" "u2"
     (by decide) (by decide) (by decide)⟩

/-- C2: in a store with pairwise-distinct workout ids, fetching a stored
workout by id with its owner as caller returns exactly that workout; fetching
it with any other caller returns null; and `getWorkoutById` never returns a
workout whose userId differs from the caller's. -/
theorem c2_getWorkoutById_ownership (db : DB) (W : Workout)
    (hmem : W ∈ db.workouts)
    (huniq : db.workouts.Pairwise (fun a b => a.id ≠ b.id)) :
    getWorkoutById db W.id W.userId = some W ∧
    (∀ callerId : String, callerId ≠ W.userId →
      getWorkoutById db W.id callerId = none) ∧
    (∀ workoutId : Nat, ∀ callerId : String, ∀ w : Workout,
      getWorkoutById db workoutId callerId = some w → w.userId = callerId) := by
  refine ⟨?_, ?_, ?_⟩
  · rw [getWorkoutById, filter_workout_self W hmem huniq]
    rfl
  · intro callerId hne
    rw [getWorkoutById]
    have hnil : db.workouts.filter
        (fun w => w.id == W.id && w.userId == callerId) = [] := by
      rw [List.filter_eq_nil_iff]
      intro a ha
      simp only [Bool.and_eq_true, beq_iff_eq, not_and]
      intro haid hauser
      have : a = W := eq_of_mem_pairwise_ne huniq ha hmem haid
      subst this
      exact hne (hauser ▸ rfl)
    rw [hnil]
    rfl
  · intro workoutId callerId w hsome
    have hwmem : w ∈ db.workouts.filter
        (fun x => x.id == workoutId && x.userId == callerId) :=
      List.mem_of_mem_head? hsome
    have := (List.mem_filter.mp hwmem).2
    simp only [Bool.and_eq_true, beq_iff_eq] at this
    exact this.2

/-- C2 witness: the theorem applied to the workout of `exDB`. -/
theorem c2_getWorkoutById_ownership_witness :
    ({ id := 1, userId := "u1", name := "Leg Day", startedAt := 0,
       createdAt := 0, updatedAt := 0 } : Workout) ∈ exDB.workouts ∧
    exDB.workouts.Pairwise (fun a b => a.id ≠ b.id) ∧
    getWorkoutById exDB 1 "u1" =
      some { id := 1, userId := "u1", name := "Leg Day", startedAt := 0,
             createdAt := 0, updatedAt := 0 } :=
  ⟨by decide, by decide,
   (c2_getWorkoutById_ownership exDB
     { id := 1, userId := "u1", name := "Leg Day", startedAt := 0,
       createdAt := 0, updatedAt := 0 } (by decide) (by decide)).1⟩

/-- C6: for a stored set whose ownership chain resolves to a workout owned by
a different user than the caller (in a store with pairwise-distinct ids),
`updateSet` returns null and leaves the store — in particular the set's row —
unchanged. -/
theorem c6_updateSet_unauthorized_noop (db : DB) (s : SetRow)
    (we : WorkoutExercise) (w : Workout) (reps : Nat) (weight : String)
    (callerId : String)
    (hs : s ∈ db.sets) (hwe : we ∈ db.workoutExercises) (hw : w ∈ db.workouts)
    (hchain1 : s.workoutExerciseId = we.id) (hchain2 : we.workoutId = w.id)
    (howner : w.userId ≠ callerId)
    (husets : db.sets.Pairwise (fun a b => a.id ≠ b.id))
    (huwe : db.workoutExercises.Pairwise (fun a b => a.id ≠ b.id))
    (huw : db.workouts.Pairwise (fun a b => a.id ≠ b.id)) :
    updateSet db s.id reps weight callerId = (none, db) := by
  apply updateSet_not_owned
  rintro ⟨s2, hs2, we2, hwe2, w2, hw2, hc1, hc2, hid, huser⟩
  have hseq : s2 = s := eq_of_mem_pairwise_ne husets hs2 hs hid
  subst hseq
  have hweeq : we2 = we :=
    eq_of_mem_pairwise_ne huwe hwe2 hwe (hc1 ▸ hchain1)
  subst hweeq
  have hweq : w2 = w :=
    eq_of_mem_pairwise_ne huw hw2 hw (hc2 ▸ hchain2)
  subst hweq
  exact howner huser

/-- C6 witness: updating the set of `exDB` as caller `"u2"` is a null no-op. -/
theorem c6_updateSet_unauthorized_noop_witness :
    ({ id := 1, workoutExerciseId := 1, setNumber := 1, reps := 8,
       weight := "135", createdAt := 0 } : SetRow) ∈ exDB.sets ∧
    "u1" ≠ "u2" ∧
    updateSet exDB 1 10 "200" "u2" = (none, exDB) :=
  ⟨by decide, by decide,
   c6_updateSet_unauthorized_noop exDB
     { id := 1, workoutExerciseId := 1, setNumber := 1, reps := 8,
       weight := "135", createdAt := 0 }
     { id := 1, workoutId := 1, exerciseId := 5, order := 0, createdAt := 0 }
     { id := 1, userId := "u1", name := "Leg Day", startedAt := 0,
       createdAt := 0, updatedAt := 0 }
     10 "200" "u2" (by decide) (by decide) (by decide) (by decide) (by decide)
     (by decide) (by decide) (by decide) (by decide)⟩

/-- Appending an element to a list of naturals shifts its defaulted maximum. -/
theorem max?_getD_append (l : List Nat) (x : Nat) :
    ((l ++ [x]).max?).getD 0 = max ((l.max?).getD 0) x := by
  cases l with
  | nil => simp [List.max?]
  | cons a as => simp [List.max?, List.foldl_append]

/-- The defaulted maximum of the contiguous block `[1, …, k]` is `k`. -/
theorem max?_getD_range' (k : Nat) : ((List.range' 1 k).max?).getD 0 = k := by
  induction k with
  | zero => simp [List.max?]
  | succ n ih =>
    rw [List.range'_concat, max?_getD_append, ih, max_eq_right (by omega)]
    omega

/-- `createSet` touches only the sets table. -/
theorem createSet_preserves (db : DB) (workoutExerciseId : Nat) (reps : Nat)
    (weight : String) (userId : String) (newId : Nat) (now : Nat) :
    ((createSet db workoutExerciseId reps weight userId newId now).2).workouts
      = db.workouts ∧
    ((createSet db workoutExerciseId reps weight userId newId now).2).workoutExercises
      = db.workoutExercises := by
  rw [createSet]
  split <;> simp

/-- Workout-exercise ownership depends only on the workout and
workout-exercise tables. -/
theorem workoutExerciseOwnedBy_congr {db db2 : DB}
    (hwe : db2.workoutExercises = db.workoutExercises)
    (hw : db2.workouts = db.workouts) (workoutExerciseId : Nat)
    (userId : String) :
    workoutExerciseOwnedBy db2 workoutExerciseId userId ↔
      workoutExerciseOwnedBy db workoutExerciseId userId := by
  unfold workoutExerciseOwnedBy
  rw [hwe, hw]

/-- A successful `createSet` appends max existing + 1 to the stored sequence
numbers of its parent scope. -/
theorem setNumbersFor_createSet (db : DB) (workoutExerciseId : Nat)
    (reps : Nat) (weight : String) (userId : String) (newId : Nat) (now : Nat)
    (h : workoutExerciseOwnedBy db workoutExerciseId userId) :
    setNumbersFor (createSet db workoutExerciseId reps weight userId newId now).2
        workoutExerciseId =
      setNumbersFor db workoutExerciseId ++
        [((setNumbersFor db workoutExerciseId).max?).getD 0 + 1] := by
  rw [createSet_owned db workoutExerciseId reps weight userId newId now h]
  unfold setNumbersFor
  simp [List.filter_append]

/-- Sequencing invariant: starting from the contiguous block `[1, …, k]`,
`n` serialized successful `createSet` calls extend it to `[1, …, k + n]`. -/
theorem createSetsSeq_setNumbers (workoutExerciseId : Nat) (userId : String)
    (params : List (Nat × String × Nat × Nat)) :
    ∀ (db : DB) (k : Nat), workoutExerciseOwnedBy db workoutExerciseId userId →
      setNumbersFor db workoutExerciseId = List.range' 1 k →
      setNumbersFor (createSetsSeq db workoutExerciseId userId params)
          workoutExerciseId = List.range' 1 (k + params.length) := by
  induction params with
  | nil =>
    intro db k _ hk
    simpa [createSetsSeq] using hk
  | cons p ps ih =>
    intro db k h hk
    rw [createSetsSeq]
    have hpres := createSet_preserves db workoutExerciseId p.1 p.2.1 userId
      p.2.2.1 p.2.2.2
    have h2 : workoutExerciseOwnedBy
        (createSet db workoutExerciseId p.1 p.2.1 userId p.2.2.1 p.2.2.2).2
        workoutExerciseId userId :=
      (workoutExerciseOwnedBy_congr hpres.2 hpres.1 workoutExerciseId
        userId).mpr h
    have hk2 : setNumbersFor
        (createSet db workoutExerciseId p.1 p.2.1 userId p.2.2.1 p.2.2.2).2
        workoutExerciseId = List.range' 1 (k + 1) := by
      rw [setNumbersFor_createSet db workoutExerciseId p.1 p.2.1 userId
        p.2.2.1 p.2.2.2 h, hk, max?_getD_range', List.range'_concat]
      simp
      omega
    rw [ih _ (k + 1) h2 hk2]
    congr 1
    simp
    omega

/-- C3: against a workout exercise that starts with no sets and whose
ownership chain resolves to the caller, `N` serialized successful `createSet`
calls leave stored setNumber values exactly `[1, 2, …, N]` — the set
`{1, …, N}`, no gaps, no duplicates. -/
theorem c3_setNumbers_contiguous (db : DB) (workoutExerciseId : Nat)
    (userId : String) (params : List (Nat × String × Nat × Nat))
    (hown : workoutExerciseOwnedBy db workoutExerciseId userId)
    (hempty : setNumbersFor db workoutExerciseId = []) :
    setNumbersFor (createSetsSeq db workoutExerciseId userId params)
        workoutExerciseId = List.range' 1 params.length := by
  have h0 : setNumbersFor db workoutExerciseId = List.range' 1 0 := by
    simpa using hempty
  have := createSetsSeq_setNumbers workoutExerciseId userId params db 0 hown h0
  simpa using this

/-- C3 witness: two inserts into the empty workout exercise 2 of `exDB`
produce setNumbers `[1, 2]`. -/
theorem c3_setNumbers_contiguous_witness :
    workoutExerciseOwnedBy exDB 2 "u1" ∧ setNumbersFor exDB 2 = [] ∧
    setNumbersFor
        (createSetsSeq exDB 2 "u1" [(8, "135", 2, 5), (6, "145", 3, 6)]) 2 =
      List.range' 1 2 :=
  ⟨by decide, by decide,
   c3_setNumbers_contiguous exDB 2 "u1" [(8, "135", 2, 5), (6, "145", 3, 6)]
     (by decide) (by decide)⟩

/-- Workout ownership depends only on the workouts table. -/
theorem workoutOwnedBy_congr {db db2 : DB} (hw : db2.workouts = db.workouts)
    (workoutId : Nat) (userId : String) :
    workoutOwnedBy db2 workoutId userId ↔ workoutOwnedBy db workoutId userId := by
  unfold workoutOwnedBy
  rw [hw]

/-- On a resolved ownership chain, the row returned by `addExerciseToWorkout`
carries order max existing + 1 (baseline -1). -/
theorem addExerciseToWorkout_result (db : DB) (workoutId : Nat)
    (exerciseId : Nat) (userId : String) (newId : Nat) (now : Nat)
    (h : workoutOwnedBy db workoutId userId) :
    (addExerciseToWorkout db workoutId exerciseId userId newId now).1 =
      some { id := newId, workoutId := workoutId, exerciseId := exerciseId,
             order := ((ordersFor db workoutId).max?).getD (-1) + 1,
             createdAt := now } := by
  rw [addExerciseToWorkout_owned db workoutId exerciseId userId newId now h]
  rfl

/-- A successful `addExerciseToWorkout` appends max existing + 1 to the
stored orders of its workout. -/
theorem ordersFor_addExercise (db : DB) (workoutId : Nat) (exerciseId : Nat)
    (userId : String) (newId : Nat) (now : Nat)
    (h : workoutOwnedBy db workoutId userId) :
    ordersFor (addExerciseToWorkout db workoutId exerciseId userId newId now).2
        workoutId =
      ordersFor db workoutId ++ [((ordersFor db workoutId).max?).getD (-1) + 1] := by
  rw [addExerciseToWorkout_owned db workoutId exerciseId userId newId now h]
  unfold ordersFor
  simp [List.filter_append]

/-- C4: for a caller owning the workout, `addExerciseToWorkout` assigns the
first workout exercise of an exercise-free workout order 0, assigns every
subsequent one the maximum existing order plus 1, and in particular the
second serialized insert into an initially exercise-free workout gets
order 1. -/
theorem c4_order_assignment (db : DB) (workoutId : Nat) (exerciseId : Nat)
    (exerciseId2 : Nat) (userId : String) (newId : Nat) (now : Nat)
    (newId2 : Nat) (now2 : Nat)
    (hown : workoutOwnedBy db workoutId userId) :
    (∀ m : Int, (ordersFor db workoutId).max? = some m →
      ∃ we, (addExerciseToWorkout db workoutId exerciseId userId newId now).1
          = some we ∧ we.order = m + 1) ∧
    (db.workoutExercises.filter (fun we => we.workoutId == workoutId) = [] →
      ∃ we db2,
        addExerciseToWorkout db workoutId exerciseId userId newId now
          = (some we, db2) ∧ we.order = 0 ∧
        ∃ we2,
          (addExerciseToWorkout db2 workoutId exerciseId2 userId newId2 now2).1
            = some we2 ∧ we2.order = 1) := by
  constructor
  · intro m hm
    rw [addExerciseToWorkout_result db workoutId exerciseId userId newId now hown]
    refine ⟨_, rfl, ?_⟩
    simp [hm]
  · intro hnil
    have hord : ordersFor db workoutId = [] := by
      unfold ordersFor
      rw [hnil]
      rfl
    rw [addExerciseToWorkout_owned db workoutId exerciseId userId newId now hown]
    refine ⟨_, _, rfl, ?_, ?_⟩
    · simp [hnil, List.max?]
    · have hw2 : workoutOwnedBy
          { db with workoutExercises := db.workoutExercises ++
            [{ id := newId, workoutId := workoutId, exerciseId := exerciseId,
               order := (((db.workoutExercises.filter
                 (fun we => we.workoutId == workoutId)).map
                   (fun we => we.order)).max?).getD (-1) + 1,
               createdAt := now }] }
          workoutId userId :=
        (workoutOwnedBy_congr rfl workoutId userId).mpr hown
    -- second insert: orders of the workout are now exactly [0]
      rw [addExerciseToWorkout_result _ workoutId exerciseId2 userId newId2
        now2 hw2]
      refine ⟨_, rfl, ?_⟩
      simp [ordersFor, List.filter_append, hnil, List.max?]

/-- C4 witness: two inserts into the exercise-free workout 2 of `exDB` get
orders 0 and 1. -/
theorem c4_order_assignment_witness :
    workoutOwnedBy exDB 2 "u1" ∧
    exDB.workoutExercises.filter (fun we => we.workoutId == 2) = [] ∧
    (∃ we db2,
      addExerciseToWorkout exDB 2 5 "u1" 3 9 = (some we, db2) ∧ we.order = 0 ∧
      ∃ we2, (addExerciseToWorkout db2 2 5 "u1" 4 10).1 = some we2 ∧
        we2.order = 1) :=
  ⟨by decide, by decide,
   (c4_order_assignment exDB 2 5 5 "u1" 3 9 4 10 (by decide)).2 (by decide)⟩

/-- C5: the by-date fetch returns exactly the stored workouts of the given
user whose startedAt lies in the closed interval
[startOfDay date, endOfDay date], ordered ascending by startedAt. -/
theorem c5_getWorkoutsByUserIdAndDate (db : DB) (userId : String) (date : Nat) :
    (∀ w : Workout, w ∈ getWorkoutsByUserIdAndDate db userId date ↔
      (w ∈ db.workouts ∧ w.userId = userId ∧
       startOfDay date ≤ w.startedAt ∧ w.startedAt ≤ endOfDay date)) ∧
    (getWorkoutsByUserIdAndDate db userId date).Sorted leStartedAt := by
  constructor
  · intro w
    simp only [getWorkoutsByUserIdAndDate]
    rw [(List.perm_insertionSort leStartedAt _).mem_iff, List.mem_filter]
    simp only [Bool.and_eq_true, beq_iff_eq, decide_eq_true_eq]
    tauto
  · simp only [getWorkoutsByUserIdAndDate]
    exact List.sorted_insertionSort leStartedAt _

/-- C9: `updateWorkout` preserves every stored workout's id and userId, for
any caller and any patch — userId is never modified. -/
theorem c9_updateWorkout_userId_immutable (db : DB) (workoutId : Nat)
    (callerId : String) (patch : WorkoutPatch) (now : Nat) :
    ((updateWorkout db workoutId callerId patch now).2).workouts.map
        (fun w => (w.id, w.userId)) =
      db.workouts.map (fun w => (w.id, w.userId)) := by
  simp only [updateWorkout]
  rw [List.map_map]
  apply List.map_congr_left
  intro w _
  simp only [Function.comp_apply]
  split <;> simp [applyWorkoutPatch]

/-- On a resolved ownership chain, `updateSet` maps reps/weight over the
matching row and leaves everything else alone. -/
theorem updateSet_owned (db : DB) (setId : Nat) (reps : Nat) (weight : String)
    (userId : String) (h : setOwnedBy db setId userId) :
    (updateSet db setId reps weight userId).2 =
      { db with sets := db.sets.map (fun s =>
        if s.id == setId then { s with reps := reps, weight := weight }
        else s) } := by
  rw [updateSet, if_neg]
  intro hc
  exact (verifySetOwnership_isEmpty ..).mp hc h

/-- C7: both child-entity creates (`createSet`, `addExerciseToWorkout`)
return null and insert nothing when the parent's ownership chain does not
resolve to the caller, and otherwise insert exactly one row carrying the
server timestamp and the next sequence value of the parent scope, returning
that row. -/
theorem c7_create_checks_parent (db : DB) (workoutExerciseId : Nat)
    (workoutId : Nat) (exerciseId : Nat) (reps : Nat) (weight : String)
    (callerId : String) (newId : Nat) (now : Nat) (newId2 : Nat) (now2 : Nat) :
    (¬ workoutExerciseOwnedBy db workoutExerciseId callerId →
      createSet db workoutExerciseId reps weight callerId newId now
        = (none, db)) ∧
    (workoutExerciseOwnedBy db workoutExerciseId callerId →
      ∃ s, createSet db workoutExerciseId reps weight callerId newId now
          = (some s, { db with sets := db.sets ++ [s] }) ∧
        s.createdAt = now ∧ s.workoutExerciseId = workoutExerciseId ∧
        s.setNumber = ((setNumbersFor db workoutExerciseId).max?).getD 0 + 1) ∧
    (¬ workoutOwnedBy db workoutId callerId →
      addExerciseToWorkout db workoutId exerciseId callerId newId2 now2
        = (none, db)) ∧
    (workoutOwnedBy db workoutId callerId →
      ∃ we, addExerciseToWorkout db workoutId exerciseId callerId newId2 now2
          = (some we, { db with workoutExercises := db.workoutExercises ++ [we] }) ∧
        we.createdAt = now2 ∧ we.workoutId = workoutId ∧
        we.order = ((ordersFor db workoutId).max?).getD (-1) + 1) := by
  refine ⟨fun h => createSet_not_owned db workoutExerciseId reps weight
      callerId newId now h,
    fun h => ?_,
    fun h => addExerciseToWorkout_not_owned db workoutId exerciseId callerId
      newId2 now2 h,
    fun h => ?_⟩
  · exact ⟨_, createSet_owned db workoutExerciseId reps weight callerId newId
      now h, rfl, rfl, rfl⟩
  · exact ⟨_, addExerciseToWorkout_owned db workoutId exerciseId callerId
      newId2 now2 h, rfl, rfl, rfl⟩

/-- C7 witness: creating a set under workout exercise 2 of `exDB` as its
owner inserts one row with setNumber 1 and the given timestamp. -/
theorem c7_create_checks_parent_witness :
    workoutExerciseOwnedBy exDB 2 "u1" ∧
    (∃ s, createSet exDB 2 8 "135" "u1" 2 5
        = (some s, { exDB with sets := exDB.sets ++ [s] }) ∧
      s.createdAt = 5 ∧ s.workoutExerciseId = 2 ∧
      s.setNumber = ((setNumbersFor exDB 2).max?).getD 0 + 1) :=
  ⟨by decide,
   (c7_create_checks_parent exDB 2 1 5 8 "135" "u1" 2 5 3 6).2.1 (by decide)⟩

/-- C10: a successful `updateSet` touches only the matching set row's reps
and weight: the other tables are untouched, the sets table keeps its length,
every row keeps its id, workoutExerciseId, setNumber and createdAt, and rows
with a different id are wholly unchanged. -/
theorem c10_updateSet_frame (db : DB) (setId : Nat) (reps : Nat)
    (weight : String) (callerId : String)
    (hown : setOwnedBy db setId callerId) :
    ((updateSet db setId reps weight callerId).2).workouts = db.workouts ∧
    ((updateSet db setId reps weight callerId).2).exercises = db.exercises ∧
    ((updateSet db setId reps weight callerId).2).workoutExercises
      = db.workoutExercises ∧
    ((updateSet db setId reps weight callerId).2).sets.length
      = db.sets.length ∧
    ∀ i : Nat, ∀ hi : i < db.sets.length,
      ∀ hi2 : i < ((updateSet db setId reps weight callerId).2).sets.length,
      ((((updateSet db setId reps weight callerId).2).sets.get ⟨i, hi2⟩).id
          = (db.sets.get ⟨i, hi⟩).id) ∧
      ((((updateSet db setId reps weight callerId).2).sets.get
          ⟨i, hi2⟩).workoutExerciseId
          = (db.sets.get ⟨i, hi⟩).workoutExerciseId) ∧
      ((((updateSet db setId reps weight callerId).2).sets.get
          ⟨i, hi2⟩).setNumber = (db.sets.get ⟨i, hi⟩).setNumber) ∧
      ((((updateSet db setId reps weight callerId).2).sets.get
          ⟨i, hi2⟩).createdAt = (db.sets.get ⟨i, hi⟩).createdAt) ∧
      ((db.sets.get ⟨i, hi⟩).id ≠ setId →
        ((updateSet db setId reps weight callerId).2).sets.get ⟨i, hi2⟩
          = db.sets.get ⟨i, hi⟩) := by
  rw [updateSet_owned db setId reps weight callerId hown]
  refine ⟨rfl, rfl, rfl, by simp, ?_⟩
  intro i hi hi2
  simp only [List.get_eq_getElem, List.getElem_map]
  by_cases hid : (db.sets[i].id == setId) = true
  · simp [beq_iff_eq.mp hid]
  · rw [Bool.not_eq_true] at hid
    simp [hid]

/-- C10 witness: updating set 1 of `exDB` as its owner keeps all frame
fields. -/
theorem c10_updateSet_frame_witness :
    setOwnedBy exDB 1 "u1" ∧
    ((updateSet exDB 1 10 "200" "u1").2).workouts = exDB.workouts ∧
    ((updateSet exDB 1 10 "200" "u1").2).sets.length = exDB.sets.length :=
  ⟨by decide,
   (c10_updateSet_frame exDB 1 10 "200" "u1" (by decide)).1,
   (c10_updateSet_frame exDB 1 10 "200" "u1" (by decide)).2.2.2.1⟩

/-- The per-exercise set fetch is sorted ascending by setNumber. -/
theorem setsForWorkoutExercise_sorted (db : DB) (workoutExerciseId : Nat) :
    (setsForWorkoutExercise db workoutExerciseId).Sorted leSetViewNumber := by
  unfold setsForWorkoutExercise
  exact List.Pairwise.map setViewOf (fun a b hab => hab)
    (List.sorted_insertionSort leSetNumber _)

/-- Membership in the per-exercise set fetch: exactly the projections of the
stored sets of that workout exercise. -/
theorem mem_setsForWorkoutExercise (db : DB) (workoutExerciseId : Nat)
    (sv : SetView) :
    sv ∈ setsForWorkoutExercise db workoutExerciseId ↔
      ∃ s ∈ db.sets, s.workoutExerciseId = workoutExerciseId ∧
        sv = setViewOf s := by
  unfold setsForWorkoutExercise
  rw [List.mem_map]
  constructor
  · rintro ⟨s, hs, rfl⟩
    rw [(List.perm_insertionSort leSetNumber _).mem_iff, List.mem_filter] at hs
    exact ⟨s, hs.1, by simpa using hs.2, rfl⟩
  · rintro ⟨s, hs, hwe, rfl⟩
    refine ⟨s, ?_, rfl⟩
    rw [(List.perm_insertionSort leSetNumber _).mem_iff, List.mem_filter]
    exact ⟨hs, by simpa using hwe⟩

/-- C8: the composite workout-detail fetch returns null when the workout is
absent or not the caller's; otherwise it returns exactly the workout's
workout-exercise rows joined with their catalog exercise names, sorted
ascending by order, each carrying exactly its stored sets sorted ascending by
setNumber. -/
theorem c8_composite_fetch (db : DB) (workoutId : Nat) (callerId : String) :
    (¬ workoutOwnedBy db workoutId callerId →
      getWorkoutExercisesWithSets db workoutId callerId = none) ∧
    (workoutOwnedBy db workoutId callerId →
      ∃ l, getWorkoutExercisesWithSets db workoutId callerId = some l ∧
        l.Sorted leOrderDetail ∧
        (∀ d ∈ l, (d.sets).Sorted leSetViewNumber) ∧
        (∀ d ∈ l, ∃ we ∈ db.workoutExercises, ∃ e ∈ db.exercises,
          we.workoutId = workoutId ∧ we.exerciseId = e.id ∧
          d = detailRow db we e ∧ d.exerciseName = e.name) ∧
        (∀ we ∈ db.workoutExercises, ∀ e ∈ db.exercises,
          we.workoutId = workoutId → we.exerciseId = e.id →
          detailRow db we e ∈ l) ∧
        (∀ d ∈ l, ∀ sv : SetView, sv ∈ d.sets ↔
          ∃ s ∈ db.sets, s.workoutExerciseId = d.id ∧ sv = setViewOf s)) := by
  constructor
  · exact getWorkoutExercisesWithSets_not_owned db workoutId callerId
  · intro h
    rw [getWorkoutExercisesWithSets,
      if_neg (fun hc => (verifyWorkoutOwnership_isEmpty ..).mp hc h)]
    refine ⟨_, rfl, ?_, ?_, ?_, ?_, ?_⟩
    · refine List.Pairwise.map (fun p => detailRow db p.1 p.2) ?_
        (List.sorted_insertionSort leOrderPair _)
      intro p q hpq
      exact hpq
    · intro d hd
      obtain ⟨p, _, rfl⟩ := List.mem_map.mp hd
      exact setsForWorkoutExercise_sorted db p.1.id
    · intro d hd
      obtain ⟨p, hp, rfl⟩ := List.mem_map.mp hd
      rw [(List.perm_insertionSort leOrderPair _).mem_iff,
        List.mem_filter] at hp
      obtain ⟨hjoin, hwid⟩ := hp
      rw [mem_innerJoin] at hjoin
      obtain ⟨h1, h2, h3⟩ := hjoin
      exact ⟨p.1, h1, p.2, h2, by simpa using hwid, by simpa using h3,
        rfl, rfl⟩
    · intro we hwe e he hwid heid
      apply List.mem_map.mpr
      refine ⟨(we, e), ?_, rfl⟩
      rw [(List.perm_insertionSort leOrderPair _).mem_iff, List.mem_filter]
      refine ⟨(mem_innerJoin ..).mpr ⟨hwe, he, by simp [heid]⟩, by simp [hwid]⟩
    · intro d hd sv
      obtain ⟨p, _, rfl⟩ := List.mem_map.mp hd
      exact mem_setsForWorkoutExercise db p.1.id sv

/-- C8 witness: the composite fetch for workout 1 of `exDB` as its owner
succeeds and is sorted by order. -/
theorem c8_composite_fetch_witness :
    workoutOwnedBy exDB 1 "u1" ∧
    ∃ l, getWorkoutExercisesWithSets exDB 1 "u1" = some l ∧
      l.Sorted leOrderDetail := by
  refine ⟨by decide, ?_⟩
  obtain ⟨l, h1, h2, -⟩ := (c8_composite_fetch exDB 1 "u1").2 (by decide)
  exact ⟨l, h1, h2⟩

end LiftingDiary
